import Mathlib

/-!
Shallow embedding of the blog platform's content-retrieval and mutation layer
(`backend/src/controllers/postController.ts`, `commentController.ts`,
`backend/src/models`) together with proofs about the behaviour of the embedded
operations: the post-listing aggregation (`getPosts`), single-post reads
(`getPostById`), the comment tree assembler (`getComments`), the mutation layer
(`createPost`, `updatePost`, `deletePost`, `createComment`, `updateComment`,
`deleteComment`) and the like toggle (`likePost`).

Modelling conventions:
* ids and timestamps are `Nat`; the relational store is a `Store` record of
  lists of rows plus autoincrement counters and a clock;
* Sequelize calls become pure functions over `Store`; `ORDER BY` is modelled by
  a stable insertion sort on the requested key;
* JavaScript `parseInt` is modelled by `jsParseInt : String → Option Int`
  (`none` plays the role of `NaN`); quantities that JavaScript computes as
  `Math.ceil(a / b)` live in `JsNum`, which has `NaN` and `Infinity` points;
* a store query whose generated SQL the database rejects (NaN/negative
  `LIMIT`/`OFFSET`, unknown column) makes the controller take its `catch`
  branch, which answers 500; this is the `internal` constructor of the
  response types;
* the database-level unique index on `(userId, postId)` of the likes table and
  the foreign keys of `comments.parentId`/`authorId` are enforced inside the
  create primitives, mirroring the schema in `models/index.ts`.
-/

namespace Blog

/-- A user row (`users` table, `models/User.ts`); the password column is out of
scope and never read by the embedded operations. -/
structure User where
  id : Nat
  username : String
  firstName : Option String := none
  lastName : Option String := none
  avatar : Option String := none
  isActive : Bool := true
  deriving Repr, DecidableEq

/-- A post row (`posts` table, `models/Post.ts`). -/
structure Post where
  id : Nat
  title : String
  content : String
  excerpt : Option String := none
  imageUrl : Option String := none
  isPublished : Bool := false
  publishedAt : Option Nat := none
  viewCount : Nat := 0
  authorId : Nat
  createdAt : Nat := 0
  updatedAt : Nat := 0
  deriving Repr, DecidableEq

/-- A comment row (`comments` table, `models/Comment.ts`). -/
structure Comment where
  id : Nat
  content : String
  postId : Nat
  authorId : Nat
  parentId : Option Nat := none
  isApproved : Bool := true
  createdAt : Nat := 0
  updatedAt : Nat := 0
  deriving Repr, DecidableEq

/-- A like row (`likes` table, `models/Like.ts`). -/
structure Like where
  id : Nat
  userId : Nat
  postId : Nat
  createdAt : Nat := 0
  deriving Repr, DecidableEq

/-- The relational store: the four tables, one autoincrement counter per
table, and the current clock used for `new Date()`. -/
structure Store where
  users : List User := []
  posts : List Post := []
  comments : List Comment := []
  likes : List Like := []
  nextPostId : Nat := 1
  nextCommentId : Nat := 1
  nextLikeId : Nat := 1
  now : Nat := 0
  deriving Repr, DecidableEq

/-- `User.findByPk(id)`. -/
def User.findByPk (s : Store) (id : Nat) : Option User :=
  s.users.find? (fun u => u.id == id)

/-- `Post.findByPk(id)`. -/
def Post.findByPk (s : Store) (id : Nat) : Option Post :=
  s.posts.find? (fun p => p.id == id)

/-- `Comment.findByPk(id)`. -/
def Comment.findByPk (s : Store) (id : Nat) : Option Comment :=
  s.comments.find? (fun c => c.id == id)

/-- `Like.findOne({ where: { postId, userId } })`. -/
def Like.findOne (s : Store) (postId userId : Nat) : Option Like :=
  s.likes.find? (fun l => l.postId == postId && l.userId == userId)

/-- `Comment.count({ where: { postId } })`. -/
def Comment.count (s : Store) (postId : Nat) : Nat :=
  (s.comments.filter (fun c => c.postId == postId)).length

/-- `Like.count({ where: { postId } })`. -/
def Like.count (s : Store) (postId : Nat) : Nat :=
  (s.likes.filter (fun l => l.postId == postId)).length

/-- Value of a list of decimal digit characters, JavaScript-style. -/
def digitsVal (cs : List Char) : Nat :=
  cs.foldl (fun a c => a * 10 + (c.toNat - 48)) 0

/-- JavaScript `parseInt(s)` (radix 10): skip leading whitespace, optional
sign, then the longest digit prefix; `none` models `NaN`. -/
def jsParseInt (s : String) : Option Int :=
  let cs := s.toList.dropWhile (fun c => c.isWhitespace)
  let signed : Int × List Char :=
    match cs with
    | '-' :: r => (-1, r)
    | '+' :: r => (1, r)
    | r => (1, r)
  let ds := signed.2.takeWhile (fun c => c.isDigit)
  if ds.isEmpty then none else some (signed.1 * (digitsVal ds : Int))

/-- Uppercases a string character by character (used for the order-direction
check, which Sequelize performs case-insensitively). -/
def jsToUpper (s : String) : String := String.mk (s.toList.map Char.toUpper)

/-- A JavaScript number as it appears in the pagination arithmetic: an
integer, `Infinity`, or `NaN`. -/
inductive JsNum where
  | num : Int → JsNum
  | posInf : JsNum
  | nan : JsNum
  deriving Repr, DecidableEq

/-- `Math.ceil(count / limit)` for a non-negative integer `count` and an
integer `limit`, with the JavaScript division-by-zero behaviour. -/
def jsCeilDiv (count : Nat) (limit : Int) : JsNum :=
  if 0 < limit then
    JsNum.num ((count + limit.toNat - 1) / limit.toNat : Nat)
  else if limit = 0 then
    if count = 0 then JsNum.nan else JsNum.posInf
  else
    JsNum.num (-(count / limit.natAbs : Nat))

/-- JavaScript `<` between an integer and a `JsNum` (`x < Infinity` is true,
any comparison with `NaN` is false). -/
def jsLt (a : Int) (b : JsNum) : Bool :=
  match b with
  | JsNum.num n => decide (a < n)
  | JsNum.posInf => true
  | JsNum.nan => false

/-- The pagination object built by the controllers:
`{ currentPage, totalPages, totalItems, hasNextPage, hasPrevPage }`. -/
structure Pagination where
  currentPage : Int
  totalPages : JsNum
  totalItems : Nat
  hasNextPage : Bool
  hasPrevPage : Bool
  deriving Repr, DecidableEq

/-- Builds the pagination metadata exactly as the controllers do. -/
def mkPagination (page limit : Int) (count : Nat) : Pagination :=
  { currentPage := page
    totalPages := jsCeilDiv count limit
    totalItems := count
    hasNextPage := jsLt page (jsCeilDiv count limit)
    hasPrevPage := decide (1 < page) }

/-- The `{ id, username, avatar }` attribute subset used by the list includes. -/
structure PublicUser where
  id : Nat
  username : String
  avatar : Option String
  deriving Repr, DecidableEq

/-- Projection to the `['id', 'username', 'avatar']` attribute subset. -/
def User.toPublic (u : User) : PublicUser :=
  { id := u.id, username := u.username, avatar := u.avatar }

/-- The `{ id, username, firstName, lastName, avatar }` attribute subset used
by `getPostById`. -/
structure ProfileUser where
  id : Nat
  username : String
  firstName : Option String
  lastName : Option String
  avatar : Option String
  deriving Repr, DecidableEq

/-- Projection to the `['id', 'username', 'firstName', 'lastName', 'avatar']`
attribute subset. -/
def User.toProfile (u : User) : ProfileUser :=
  { id := u.id, username := u.username, firstName := u.firstName,
    lastName := u.lastName, avatar := u.avatar }

/-- Ascending `createdAt` order (`order: [['createdAt', 'ASC']]`). -/
def byCreatedAtAsc (a b : Comment) : Prop := a.createdAt ≤ b.createdAt

/-- Descending `createdAt` order (`order: [['createdAt', 'DESC']]`). -/
def byCreatedAtDesc (a b : Comment) : Prop := b.createdAt ≤ a.createdAt

instance : DecidableRel byCreatedAtAsc :=
  fun a b => inferInstanceAs (Decidable (a.createdAt ≤ b.createdAt))

instance : DecidableRel byCreatedAtDesc :=
  fun a b => inferInstanceAs (Decidable (b.createdAt ≤ a.createdAt))

/-- A comment joined with its author's public identity subset, the shape of a
reply row and of the refetch done by `createComment`/`updateComment`. -/
structure ReplyItem where
  comment : Comment
  author : Option PublicUser
  deriving Repr, DecidableEq

/-- The `author` include of the comment queries. -/
def commentAuthor (s : Store) (c : Comment) : Option PublicUser :=
  (User.findByPk s c.authorId).map User.toPublic

/-- The `replies` include of `getComments`: direct replies of a comment with
their authors, ordered by `createdAt` ascending as the include requests. -/
def commentReplies (s : Store) (c : Comment) : List ReplyItem :=
  (List.insertionSort byCreatedAtAsc
      (s.comments.filter (fun r => r.parentId == some c.id))).map
    (fun r => { comment := r, author := commentAuthor s r })

/-- A top-level comment row of the `getComments` response. -/
structure CommentItem where
  comment : Comment
  author : Option PublicUser
  replies : List ReplyItem
  deriving Repr, DecidableEq

/-- Builds one row of the `getComments` response. -/
def buildCommentItem (s : Store) (c : Comment) : CommentItem :=
  { comment := c, author := commentAuthor s c, replies := commentReplies s c }

/-- The top-level comments of a post:
`where: { postId, parentId: null }`. -/
def topLevelFor (s : Store) (postId : Nat) : List Comment :=
  s.comments.filter (fun c => c.postId == postId && c.parentId == none)

/-- Response of `getComments`: 404 when the post is absent, 200 with rows and
pagination, or 500 when the store rejects the generated query. -/
inductive CommentsResponse where
  | notFound
  | ok (comments : List CommentItem) (pagination : Pagination)
  | internal
  deriving Repr, DecidableEq

/-- `getComments` (`commentController.ts`): parses `page`/`limit` with
defaults `'1'`/`'20'`, 404s when the post is absent, then pages the top-level
comments ordered by `createdAt` descending, each with author and ascending
replies. A `NaN` or negative `LIMIT`/`OFFSET` makes the store reject the
query, which the catch handler turns into a 500. -/
def getComments (s : Store) (postId : Nat) (pageQ limitQ : Option String) :
    CommentsResponse :=
  let pageNumber := jsParseInt (pageQ.getD "1")
  let limitNumber := jsParseInt (limitQ.getD "20")
  match Post.findByPk s postId with
  | none => .notFound
  | some _ =>
    match pageNumber, limitNumber with
    | some p, some L =>
      let offset := (p - 1) * L
      if L < 0 || offset < 0 then .internal
      else
        let sorted := List.insertionSort byCreatedAtDesc (topLevelFor s postId)
        let rows := (sorted.drop offset.toNat).take L.toNat
        .ok (rows.map (buildCommentItem s)) (mkPagination p L (topLevelFor s postId).length)
    | _, _ => .internal

/-- Response of `createComment`. -/
inductive CreateCommentResponse where
  | postNotFound
  | parentNotFound
  | created (comment : Option ReplyItem)
  | internal
  deriving Repr, DecidableEq

/-- `createComment` (`commentController.ts`): 404 when the post is absent;
when `parentId` is truthy (present and non-zero, as the JavaScript
`if (parentId)` tests), 404 unless the parent comment exists and belongs to
the same post; otherwise inserts the row (the `comments.authorId` and
`comments.parentId` foreign keys of the schema reject dangling references,
which the catch handler surfaces as 500) and refetches it with its author. -/
def createComment (s : Store) (authorId : Nat) (content : String)
    (postId : Nat) (parentId : Option Nat) : CreateCommentResponse × Store :=
  match Post.findByPk s postId with
  | none => (.postNotFound, s)
  | some _ =>
    let parentTruthy : Bool := match parentId with
      | some q => q != 0
      | none => false
    let parentInvalid : Bool := match parentId with
      | some q =>
        match Comment.findByPk s q with
        | none => true
        | some parent => parent.postId != postId
      | none => false
    if parentTruthy && parentInvalid then (.parentNotFound, s)
    else if (User.findByPk s authorId).isNone then (.internal, s)
    else if (match parentId with
             | some q => (Comment.findByPk s q).isNone
             | none => false) then (.internal, s)
    else
      let c : Comment :=
        { id := s.nextCommentId, content := content, postId := postId,
          authorId := authorId, parentId := parentId, isApproved := true,
          createdAt := s.now, updatedAt := s.now }
      let s2 := { s with comments := s.comments ++ [c],
                         nextCommentId := s.nextCommentId + 1 }
      (.created ((Comment.findByPk s2 c.id).map
        (fun cc => { comment := cc, author := commentAuthor s2 cc })), s2)

/-- Response of `updateComment`. -/
inductive UpdateCommentResponse where
  | notFound
  | forbidden
  | ok (comment : Option ReplyItem)
  deriving Repr, DecidableEq

/-- `updateComment` (`commentController.ts`): 404 when absent, 403 when the
actor is not the author, else updates the content and refetches. -/
def updateComment (s : Store) (actorId commentId : Nat) (content : String) :
    UpdateCommentResponse × Store :=
  match Comment.findByPk s commentId with
  | none => (.notFound, s)
  | some c =>
    if c.authorId != actorId then (.forbidden, s)
    else
      let cs2 := s.comments.map
        (fun x => if x.id == c.id then { x with content := content, updatedAt := s.now } else x)
      let s2 := { s with comments := cs2 }
      (.ok ((Comment.findByPk s2 c.id).map
        (fun cc => { comment := cc, author := commentAuthor s2 cc })), s2)

/-- Response of the deletion endpoints. -/
inductive DeleteResponse where
  | notFound
  | forbidden
  | ok
  deriving Repr, DecidableEq

/-- Ids deleted by the `comments.parentId` `ON DELETE CASCADE` chain when the
comment `root` is destroyed. -/
def cascadeDead (cs : List Comment) (root : Nat) : List Nat :=
  (fun dead : List Nat =>
    dead ++ ((cs.filter (fun c =>
      (match c.parentId with
       | some q => dead.contains q
       | none => false) && !(dead.contains c.id))).map (fun c => c.id)))^[cs.length] [root]

/-- `deleteComment` (`commentController.ts`): 404 when absent, 403 when the
actor is not the author, else destroys the row; the schema cascades the
deletion to reply subtrees through the `parentId` foreign key. -/
def deleteComment (s : Store) (actorId commentId : Nat) : DeleteResponse × Store :=
  match Comment.findByPk s commentId with
  | none => (.notFound, s)
  | some c =>
    if c.authorId != actorId then (.forbidden, s)
    else
      let dead := cascadeDead s.comments c.id
      (.ok, { s with comments := s.comments.filter (fun x => !(dead.contains x.id)) })

/-- Response of `likePost`: 404, 200 with the toggle outcome, or 500 from the
catch-all handler. -/
inductive LikeResponse where
  | notFound
  | ok (message : String) (liked : Bool)
  | internal
  deriving Repr, DecidableEq

/-- `likePost` (`postController.ts`) with its two store interactions made
explicit: the reads (`Post.findByPk`, `Like.findOne`) run against `sRead`
while the write runs against `sWrite`; a concurrent interleaving is the case
`sRead ≠ sWrite`, the sequential call is `sRead = sWrite`. `destroy` deletes
by primary key and is a no-op when the row is already gone; `Like.create` is
rejected by the unique index on `(userId, postId)` and by the `userId`/
`postId` foreign keys, and any rejection lands in the catch-all handler,
which answers 500. -/
def likePostRaced (sRead sWrite : Store) (userId postId : Nat) :
    LikeResponse × Store :=
  match Post.findByPk sRead postId with
  | none => (.notFound, sWrite)
  | some post =>
    match Like.findOne sRead post.id userId with
    | some l =>
      (.ok "Post unliked" false,
        { sWrite with likes := sWrite.likes.filter (fun x => x.id != l.id) })
    | none =>
      if (Like.findOne sWrite post.id userId).isSome then (.internal, sWrite)
      else if (User.findByPk sWrite userId).isNone
           || (Post.findByPk sWrite post.id).isNone then (.internal, sWrite)
      else
        (.ok "Post liked" true,
          { sWrite with
            likes := sWrite.likes ++
              [{ id := sWrite.nextLikeId, userId := userId, postId := post.id,
                 createdAt := sWrite.now }],
            nextLikeId := sWrite.nextLikeId + 1 })

/-- The sequential `likePost` endpoint: reads and write against one store. -/
def likePost (s : Store) (userId postId : Nat) : LikeResponse × Store :=
  likePostRaced s s userId postId

/-- Number of `Like` rows for the pair `(userId, postId)`. -/
def likePairCount (s : Store) (userId postId : Nat) : Nat :=
  (s.likes.filter (fun l => l.postId == postId && l.userId == userId)).length

/-- Iterates the sequential like toggle, threading the store. -/
def likePostIter (s : Store) (userId postId : Nat) : Nat → Store
  | 0 => s
  | n + 1 => likePostIter (likePost s userId postId).2 userId postId n

/-- A post joined with the `['id','username','avatar']` author subset, the
shape returned by the post mutations. -/
structure PostWithAuthor where
  post : Post
  author : Option PublicUser
  deriving Repr, DecidableEq

/-- Body of `createPost` (`CreatePostRequest`); `tags` is accepted by the
controller but the `Post` model declares no `tags` attribute, so
`Post.create` drops it. -/
structure CreatePostBody where
  title : String
  content : String
  excerpt : Option String := none
  imageUrl : Option String := none
  tags : Option (List String) := none
  deriving Repr, DecidableEq

/-- The `beforeCreate` hook of the `Post` model: when `excerpt` is falsy and
`content` is truthy, derive the excerpt as
`content.substring(0, 200) + '...'`. -/
def Post.applyExcerptHook (p : Post) : Post :=
  if (p.excerpt.getD "") == "" && p.content != "" then
    { p with excerpt := some (p.content.take 200 ++ "...") }
  else p

/-- Response of `createPost`. -/
inductive CreatePostResponse where
  | ok (post : Option PostWithAuthor)
  | internal
  deriving Repr, DecidableEq

/-- `createPost` (`postController.ts`): inserts the row with
`isPublished: true` and `publishedAt: new Date()`, running the excerpt
`beforeCreate` hook, then refetches it joined with its author. The
`posts.authorId` foreign key rejects a dangling author (surfaced as 500). -/
def createPost (s : Store) (authorId : Nat) (b : CreatePostBody) :
    CreatePostResponse × Store :=
  if (User.findByPk s authorId).isNone then (.internal, s)
  else
    let p := Post.applyExcerptHook
      { id := s.nextPostId, title := b.title, content := b.content,
        excerpt := b.excerpt, imageUrl := b.imageUrl, isPublished := true,
        publishedAt := some s.now, viewCount := 0, authorId := authorId,
        createdAt := s.now, updatedAt := s.now }
    let s2 := { s with posts := s.posts ++ [p], nextPostId := s.nextPostId + 1 }
    (.ok ((Post.findByPk s2 p.id).map
      (fun pp => { post := pp, author := (User.findByPk s2 pp.authorId).map User.toPublic })), s2)

/-- Body of `updatePost` (`UpdatePostRequest`): absent fields are skipped by
`post.update`. -/
structure UpdatePostBody where
  title : Option String := none
  content : Option String := none
  excerpt : Option String := none
  imageUrl : Option String := none
  deriving Repr, DecidableEq

/-- Applies the supplied fields of an update body to a post row; `isPublished`
is not among the updatable fields, so the `beforeUpdate` hook never fires on
this path. -/
def Post.applyUpdate (p : Post) (b : UpdatePostBody) (now : Nat) : Post :=
  { p with
    title := b.title.getD p.title
    content := b.content.getD p.content
    excerpt := match b.excerpt with | some e => some e | none => p.excerpt
    imageUrl := match b.imageUrl with | some i => some i | none => p.imageUrl
    updatedAt := now }

/-- Response of `updatePost`. -/
inductive UpdatePostResponse where
  | notFound
  | forbidden
  | ok (post : Option PostWithAuthor)
  deriving Repr, DecidableEq

/-- `updatePost` (`postController.ts`): 404 when absent, 403 when the actor is
not the author, else applies the supplied fields and refetches. -/
def updatePost (s : Store) (actorId postId : Nat) (b : UpdatePostBody) :
    UpdatePostResponse × Store :=
  match Post.findByPk s postId with
  | none => (.notFound, s)
  | some post =>
    if post.authorId != actorId then (.forbidden, s)
    else
      let ps2 := s.posts.map
        (fun x => if x.id == post.id then Post.applyUpdate x b s.now else x)
      let s2 := { s with posts := ps2 }
      (.ok ((Post.findByPk s2 post.id).map
        (fun pp => { post := pp, author := (User.findByPk s2 pp.authorId).map User.toPublic })), s2)

/-- `deletePost` (`postController.ts`): 404 when absent, 403 when the actor is
not the author, else destroys the row; the schema cascades to the post's
comments and likes. -/
def deletePost (s : Store) (actorId postId : Nat) : DeleteResponse × Store :=
  match Post.findByPk s postId with
  | none => (.notFound, s)
  | some post =>
    if post.authorId != actorId then (.forbidden, s)
    else
      (.ok, { s with
        posts := s.posts.filter (fun x => x.id != post.id),
        comments := s.comments.filter (fun c => c.postId != post.id),
        likes := s.likes.filter (fun l => l.postId != post.id) })

/-- A comment with its full author row, the shape produced by
`Post.getCommentsWithAuthors` (whose include has no attribute restriction). -/
structure CommentWithAuthor where
  comment : Comment
  author : Option User
  deriving Repr, DecidableEq

/-- `post.getCommentsWithAuthors()` (`models/Post.ts`): all comments of the
post — top-level and replies in one flat list — with their authors, ordered
by `createdAt` ascending. -/
def Post.getCommentsWithAuthors (s : Store) (p : Post) : List CommentWithAuthor :=
  (List.insertionSort byCreatedAtAsc
      (s.comments.filter (fun c => c.postId == p.id))).map
    (fun c => { comment := c, author := User.findByPk s c.authorId })

/-- Response of `getPostById`. -/
inductive PostDetailResponse where
  | notFound
  | ok (post : Post) (author : Option ProfileUser)
       (comments : List CommentWithAuthor) (likeCount : Nat) (isLiked : Bool)
  deriving Repr, DecidableEq

/-- `getPostById` (`postController.ts`): 404 when no post with the id exists
or it is unpublished; otherwise increments `viewCount` by one, saves the row,
and answers with the post, its author profile subset, the flat comment list
of `getCommentsWithAuthors`, the like count, and the viewer's `isLiked`. -/
def getPostById (s : Store) (viewer : Option Nat) (postId : Nat) :
    PostDetailResponse × Store :=
  match Post.findByPk s postId with
  | none => (.notFound, s)
  | some post =>
    if !post.isPublished then (.notFound, s)
    else
      let post2 := { post with viewCount := post.viewCount + 1, updatedAt := s.now }
      let ps2 := s.posts.map (fun x => if x.id == post.id then post2 else x)
      let s2 := { s with posts := ps2 }
      let isLiked := match viewer with
        | some u => (Like.findOne s2 post.id u).isSome
        | none => false
      (.ok post2 ((User.findByPk s2 post.authorId).map User.toProfile)
        (Post.getCommentsWithAuthors s2 post2) (Like.count s2 post.id) isLiked, s2)

/-- Query-string parameters of `getPosts` (`PostQuery`); `none` is an absent
parameter, for which the destructuring defaults apply. -/
structure PostQuery where
  page : Option String := none
  limit : Option String := none
  sortBy : Option String := none
  sortOrder : Option String := none
  search : Option String := none
  tags : Option String := none
  authorId : Option String := none
  deriving Repr, DecidableEq

/-- The columns of the `posts` table; any other `sortBy` value reaches the
store as an unknown column and the query is rejected. -/
def validSortColumns : List String :=
  ["id", "title", "content", "excerpt", "imageUrl", "isPublished",
   "publishedAt", "viewCount", "authorId", "createdAt", "updatedAt"]

/-- Order on optional column values (SQL `NULL` sorts first here; no claim
depends on the relative placement of `NULL`). -/
def optLe {α : Type} (le : α → α → Bool) : Option α → Option α → Bool
  | none, _ => true
  | some _, none => false
  | some a, some b => le a b

/-- Column-wise comparison backing `ORDER BY column ASC` on the posts table. -/
def postColLe (col : String) (a b : Post) : Bool :=
  match col with
  | "id" => decide (a.id ≤ b.id)
  | "title" => decide (a.title ≤ b.title)
  | "content" => decide (a.content ≤ b.content)
  | "excerpt" => optLe (fun x y => decide (x ≤ y)) a.excerpt b.excerpt
  | "imageUrl" => optLe (fun x y => decide (x ≤ y)) a.imageUrl b.imageUrl
  | "isPublished" => !a.isPublished || b.isPublished
  | "publishedAt" => optLe (fun x y : Nat => decide (x ≤ y)) a.publishedAt b.publishedAt
  | "viewCount" => decide (a.viewCount ≤ b.viewCount)
  | "authorId" => decide (a.authorId ≤ b.authorId)
  | "createdAt" => decide (a.createdAt ≤ b.createdAt)
  | "updatedAt" => decide (a.updatedAt ≤ b.updatedAt)
  | _ => true

/-- The `order: [[sortBy, sortOrder]]` relation of `getPosts` after the
destructuring defaults `sortBy = 'createdAt'`, `sortOrder = 'DESC'`. -/
def postOrderLe (q : PostQuery) (a b : Post) : Bool :=
  let col := q.sortBy.getD "createdAt"
  if jsToUpper (q.sortOrder.getD "DESC") == "DESC" then postColLe col b a
  else postColLe col a b

/-- Substring test on character lists. -/
def containsSub (needle : List Char) : List Char → Bool
  | [] => needle.isEmpty
  | c :: t => needle.isPrefixOf (c :: t) || containsSub needle t

/-- The `iLike '%pat%'` operator: case-insensitive substring match. -/
def iLikeContains (hay pat : String) : Bool :=
  containsSub pat.toLower.toList hay.toLower.toList

/-- The `where` clause of `getPosts`: `isPublished: true`, the optional
case-insensitive `search` over title or content, and the optional
`authorId` equality. -/
def postWhere (q : PostQuery) (p : Post) : Bool :=
  p.isPublished &&
  (match q.search with
   | none => true
   | some pat => iLikeContains p.title pat || iLikeContains p.content pat) &&
  (match q.authorId with
   | none => true
   | some a =>
     match jsParseInt a with
     | some v => decide ((p.authorId : Int) = v)
     | none => false)

/-- Conditions under which the store rejects the `findAndCountAll` of
`getPosts`: `NaN` page or limit (invalid `LIMIT`/`OFFSET`), a negative
`LIMIT` or `OFFSET`, an unknown `sortBy` column, an invalid `sortOrder`
direction, a `tags` filter (the `posts` table has no `tags` column), or a
`NaN` `authorId`. The catch handler answers 500 in each case. -/
def getPostsQueryError (q : PostQuery) : Bool :=
  match jsParseInt (q.page.getD "1"), jsParseInt (q.limit.getD "10") with
  | some p, some L =>
    L < 0 || (p - 1) * L < 0 ||
    !(validSortColumns.contains (q.sortBy.getD "createdAt")) ||
    !(jsToUpper (q.sortOrder.getD "DESC") == "ASC"
      || jsToUpper (q.sortOrder.getD "DESC") == "DESC") ||
    q.tags.isSome ||
    (match q.authorId with
     | some a => (jsParseInt a).isNone
     | none => false)
  | _, _ => true

/-- The posts matching the `where` clause, in table order. -/
def getPostsMatching (s : Store) (q : PostQuery) : List Post :=
  s.posts.filter (postWhere q)

/-- The page of rows returned by the `findAndCountAll` of `getPosts`. -/
def getPostsRows (s : Store) (q : PostQuery) : List Post :=
  let p := (jsParseInt (q.page.getD "1")).getD 1
  let L := (jsParseInt (q.limit.getD "10")).getD 10
  let sorted := List.insertionSort (fun a b => postOrderLe q a b = true)
    (getPostsMatching s q)
  (sorted.drop (((p - 1) * L).toNat)).take L.toNat

/-- The `['id','content','createdAt']` comment attribute subset of the
`comments` include of `getPosts`. -/
structure PostListComment where
  id : Nat
  content : String
  createdAt : Nat
  deriving Repr, DecidableEq

/-- One element of the `posts` array of the `getPosts` response: the spread
`...post.toJSON()` (with its `author`, `comments` and `likes` includes) plus
the three per-post derived fields. -/
structure PostListItem where
  post : Post
  author : Option PublicUser
  comments : List PostListComment
  likes : List Nat
  commentCount : Nat
  likeCount : Nat
  isLiked : Bool
  deriving Repr, DecidableEq

/-- Annotates one fetched post row, mirroring the body of the
`posts.rows.map` in `getPosts`, and counts the store round trips it issues:
`Comment.count`, `Like.count`, and — when a viewer is authenticated —
`Like.findOne`, one query each. -/
def annotatePost (s : Store) (viewer : Option Nat) (p : Post) : PostListItem × Nat :=
  let isLikedQ : Bool × Nat := match viewer with
    | some u => ((Like.findOne s p.id u).isSome, 1)
    | none => (false, 0)
  ({ post := p
     author := (User.findByPk s p.authorId).map User.toPublic
     comments := (s.comments.filter (fun c => c.postId == p.id)).map
       (fun c => { id := c.id, content := c.content, createdAt := c.createdAt })
     likes := (s.likes.filter (fun l => l.postId == p.id)).map (fun l => l.id)
     commentCount := Comment.count s p.id
     likeCount := Like.count s p.id
     isLiked := isLikedQ.1 }, 2 + isLikedQ.2)

/-- Response of `getPosts`. -/
inductive PostsResponse where
  | ok (posts : List PostListItem) (pagination : Pagination)
  | internal
  deriving Repr, DecidableEq

/-- `getPosts` (`postController.ts`) instrumented with the number of store
round trips: one `findAndCountAll`, then — per fetched row — the separate
`Comment.count`, `Like.count` and optional `Like.findOne` queries of the
`Intentionally inefficient` block. The result pairs the HTTP response with
the total query count. -/
def getPostsT (s : Store) (q : PostQuery) (viewer : Option Nat) :
    PostsResponse × Nat :=
  if getPostsQueryError q then (.internal, 1)
  else
    let p := (jsParseInt (q.page.getD "1")).getD 1
    let L := (jsParseInt (q.limit.getD "10")).getD 10
    let annotated := (getPostsRows s q).map (annotatePost s viewer)
    (.ok (annotated.map Prod.fst)
       (mkPagination p L (getPostsMatching s q).length),
     1 + (annotated.map Prod.snd).sum)

/-- The `getPosts` HTTP response. -/
def getPosts (s : Store) (q : PostQuery) (viewer : Option Nat) : PostsResponse :=
  (getPostsT s q viewer).1

/-- The number of store round trips issued by one `getPosts` call. -/
def getPostsQueryCount (s : Store) (q : PostQuery) (viewer : Option Nat) : Nat :=
  (getPostsT s q viewer).2

/-- Normalizes the moderation flag of a comment; two comments agree on every
column except `isApproved` exactly when their images under `stripApproved`
are equal. -/
def stripApproved (c : Comment) : Comment := { c with isApproved := true }

/-- Applies a comment transformation to a reply row of a response. -/
def mapReplyItem (g : Comment → Comment) (r : ReplyItem) : ReplyItem :=
  { r with comment := g r.comment }

/-- Applies a comment transformation to a top-level row of a `getComments`
response. -/
def mapCommentItem (g : Comment → Comment) (i : CommentItem) : CommentItem :=
  { i with comment := g i.comment, replies := i.replies.map (mapReplyItem g) }

/-- Applies a comment transformation to every comment of a `getComments`
response, leaving everything else untouched. -/
def mapCommentsResponse (g : Comment → Comment) :
    CommentsResponse → CommentsResponse
  | CommentsResponse.ok items pag =>
      CommentsResponse.ok (items.map (mapCommentItem g)) pag
  | r => r

/-- Applies a comment transformation to an authored-comment row. -/
def mapCommentWithAuthor (g : Comment → Comment) (x : CommentWithAuthor) :
    CommentWithAuthor :=
  { x with comment := g x.comment }

/-- Applies a comment transformation to every comment of a `getPostById`
response, leaving everything else untouched. -/
def mapDetailResponse (g : Comment → Comment) :
    PostDetailResponse → PostDetailResponse
  | PostDetailResponse.ok post author comments likeCount isLiked =>
      PostDetailResponse.ok post author
        (comments.map (mapCommentWithAuthor g)) likeCount isLiked
  | r => r

/-- Clears the moderation flag of a comment; a `stripApproved`-preserving
transformation used to instantiate the noninterference statement. -/
def flipApproved (c : Comment) : Comment := { c with isApproved := false }

/-! Sample rows used to evaluate the embedded operations at concrete inputs. -/

/-- Sample user with id 1. -/
def alice : User := { id := 1, username := "alice" }

/-- Sample user with id 2. -/
def bob : User := { id := 2, username := "bob" }

/-- Sample published post with id 1, authored by user 1. -/
def samplePost : Post :=
  { id := 1, title := "t1", content := "hello world", isPublished := true,
    authorId := 1, createdAt := 5 }

/-- Sample published post with id 2, authored by user 2. -/
def samplePost2 : Post :=
  { id := 2, title := "t2", content := "second", isPublished := true,
    authorId := 2, createdAt := 9 }

/-- Sample unpublished post with id 3. -/
def draftPost : Post :=
  { id := 3, title := "draft", content := "wip", isPublished := false,
    authorId := 1, createdAt := 12 }

/-- Sample top-level comment created at 10. -/
def sampleC1 : Comment :=
  { id := 1, content := "first", postId := 1, authorId := 2, createdAt := 10 }

/-- Sample top-level comment created at 20. -/
def sampleC2 : Comment :=
  { id := 2, content := "second", postId := 1, authorId := 1, createdAt := 20 }

/-- Sample reply to comment 1, created at 15. -/
def sampleReply : Comment :=
  { id := 3, content := "reply", postId := 1, authorId := 1,
    parentId := some 1, createdAt := 15 }

/-- Sample store holding the rows above plus one like by user 2 on post 1. -/
def sampleStore : Store :=
  { users := [alice, bob], posts := [samplePost, samplePost2, draftPost],
    comments := [sampleC1, sampleC2, sampleReply],
    likes := [{ id := 1, userId := 2, postId := 1 }],
    nextPostId := 4, nextCommentId := 4, nextLikeId := 2, now := 100 }

/-- Store for the like-race scenarios: one user, one published post, no
likes. -/
def raceBase : Store :=
  { users := [alice], posts := [samplePost], nextPostId := 2,
    nextCommentId := 1, nextLikeId := 1, now := 50 }

/-- The store after a first toggle has inserted the `Like(1, 1)` row. -/
def raceAfterInsert : Store := (likePost raceBase 1 1).2

/-- Store in which user 1 already likes post 1. -/
def raceLiked : Store :=
  { raceBase with likes := [{ id := 1, userId := 1, postId := 1 }], nextLikeId := 2 }

/-- The comments of a `getComments` response (empty on the error answers). -/
def commentsOf : CommentsResponse → List CommentItem
  | CommentsResponse.ok items _ => items
  | _ => []

/-- The posts of a `getPosts` response (empty on the error answer). -/
def postsOf : PostsResponse → List PostListItem
  | PostsResponse.ok posts _ => posts
  | _ => []

/-- The comment-parent invariant: every stored comment with a `parentId`
references a stored comment of the same post. -/
def parentSameInv (s : Store) : Prop :=
  ∀ c ∈ s.comments, ∀ q, c.parentId = some q →
    ∃ parent, parent ∈ s.comments ∧ parent.id = q ∧ parent.postId = c.postId

instance : IsTotal Comment byCreatedAtAsc :=
  ⟨fun a b => Nat.le_total a.createdAt b.createdAt⟩

instance : IsTrans Comment byCreatedAtAsc :=
  ⟨fun _ _ _ h1 h2 => Nat.le_trans h1 h2⟩

instance : IsTotal Comment byCreatedAtDesc :=
  ⟨fun a b => Nat.le_total b.createdAt a.createdAt⟩

instance : IsTrans Comment byCreatedAtDesc :=
  ⟨fun _ _ _ h1 h2 => Nat.le_trans h2 h1⟩

/-- A 300-character content used to exercise the excerpt derivation. -/
def sampleLongContent : String := String.mk (List.replicate 300 'a')

/-! Generic list helpers. -/

/-- Replacing the row found by `find?` in place, by a row with the same id,
makes `find?` return the replacement. -/
theorem find?_replace (ps : List Post) (pid : Nat) (post post2 : Post)
    (h : ps.find? (fun x => x.id == pid) = some post) (hid2 : post2.id = post.id) :
    (ps.map (fun x => if x.id == post.id then post2 else x)).find?
      (fun x => x.id == pid) = some post2 := by
  induction ps with
  | nil => simp at h
  | cons y t ih =>
    by_cases hy : (y.id == pid) = true
    · rw [@List.find?_cons_of_pos Post (fun x => x.id == pid) y t hy] at h
      have hyp : y = post := Option.some.inj h
      subst hyp
      have hpid : y.id = pid := by simpa using hy
      have h2pid : (post2.id == pid) = true := by simp [hid2, hpid]
      simp only [List.map_cons, beq_self_eq_true, if_true]
      exact @List.find?_cons_of_pos Post (fun x => x.id == pid) post2 _ h2pid
    · have hyb : (y.id == pid) = false := by simpa using hy
      rw [@List.find?_cons_of_neg Post (fun x => x.id == pid) y t (by simp [hyb])] at h
      have hpid : (post.id == pid) = true :=
        @List.find?_some Post (fun x => x.id == pid) post t h
      have hpid' : post.id = pid := by simpa using hpid
      have hyne : (y.id == post.id) = false := by
        rw [hpid']
        exact hyb
      simp only [List.map_cons, hyne, Bool.false_eq_true, if_false]
      rw [@List.find?_cons_of_neg Post (fun x => x.id == pid) y _ (by simp [hyb])]
      exact ih h

/-- Sum of a constant map. -/
theorem sum_map_const_nat {α : Type} (l : List α) (k : Nat) :
    (l.map (fun _ => k)).sum = k * l.length := by
  induction l with
  | nil => simp
  | cons a t ih => simp only [List.map_cons, List.sum_cons, ih, List.length_cons]; ring

/-! Facts about the like toggle (claim C2 infrastructure). -/

/-- The `Like.findOne` probe is empty exactly when there is no row for the
pair. -/
theorem likeFindOne_eq_none_iff (s : Store) (u p : Nat) :
    Like.findOne s p u = none ↔ likePairCount s u p = 0 := by
  unfold Like.findOne likePairCount
  rw [List.find?_eq_none, List.length_eq_zero, List.filter_eq_nil_iff]

/-- Destroying the row found by `Like.findOne` leaves no row for the pair,
given the unique index guarantee of at most one row per pair. -/
theorem likePairCount_after_destroy (likes : List Like) (u p : Nat) (l : Like)
    (hfind : likes.find? (fun x => x.postId == p && x.userId == u) = some l)
    (huniq : (likes.filter (fun x => x.postId == p && x.userId == u)).length ≤ 1) :
    ((likes.filter (fun x => x.id != l.id)).filter
      (fun x => x.postId == p && x.userId == u)).length = 0 := by
  have hpl : (l.postId == p && l.userId == u) = true :=
    @List.find?_some Like (fun x => x.postId == p && x.userId == u) l likes hfind
  have hmem : l ∈ likes.filter (fun x => x.postId == p && x.userId == u) :=
    List.mem_filter.mpr ⟨List.mem_of_find?_eq_some hfind, hpl⟩
  rw [List.filter_filter, List.length_eq_zero, List.filter_eq_nil_iff]
  intro x hx
  by_cases hpx : (x.postId == p && x.userId == u) = true
  · have hxmem : x ∈ likes.filter (fun y => y.postId == p && y.userId == u) :=
      List.mem_filter.mpr ⟨hx, hpx⟩
    have hxl : x = l := by
      rcases hfl : likes.filter (fun y => y.postId == p && y.userId == u) with _ | ⟨y, _ | ⟨z, t⟩⟩
      · rw [hfl] at hmem; simp at hmem
      · rw [hfl] at hmem hxmem
        simp only [List.mem_singleton] at hmem hxmem
        rw [hxmem, hmem]
      · rw [hfl] at huniq; simp at huniq
    subst hxl
    simp
  · simp [hpx]

/-- Appending the freshly created row adds exactly one row for the pair. -/
theorem likePairCount_after_create (likes : List Like) (u p : Nat) (nl : Like)
    (hp : nl.postId = p) (hu : nl.userId = u) :
    ((likes ++ [nl]).filter (fun x => x.postId == p && x.userId == u)).length =
      (likes.filter (fun x => x.postId == p && x.userId == u)).length + 1 := by
  rw [List.filter_append, List.length_append]
  simp [hp, hu]

/-- One step of the sequential like toggle: posts and users are untouched,
the pair count flips between 0 and 1, and the reported `liked` flag mirrors
the pre-state. -/
theorem likePost_step (s : Store) (u p : Nat) (post : Post)
    (hpost : Post.findByPk s p = some post)
    (huser : (User.findByPk s u).isSome = true)
    (huniq : likePairCount s u p ≤ 1) :
    (likePost s u p).2.posts = s.posts ∧
    (likePost s u p).2.users = s.users ∧
    likePairCount (likePost s u p).2 u p = 1 - likePairCount s u p ∧
    (likePost s u p).1 =
      (if likePairCount s u p = 0 then LikeResponse.ok "Post liked" true
       else LikeResponse.ok "Post unliked" false) := by
  have hid : post.id = p := by
    have h := List.find?_some hpost
    simpa using h
  cases hfind : Like.findOne s p u with
  | some l =>
    have hfindl : s.likes.find? (fun x => x.postId == p && x.userId == u) = some l := hfind
    have hcnt : likePairCount s u p ≠ 0 := by
      intro h0
      rw [← likeFindOne_eq_none_iff] at h0
      rw [h0] at hfind
      exact Option.noConfusion hfind
    have hone : likePairCount s u p = 1 := by omega
    have hcnt1 : ¬ ((s.likes.filter (fun x => x.postId == p && x.userId == u)).length = 0) := hcnt
    simp only [likePost, likePostRaced, hpost, hid, hfind, likePairCount]
    refine ⟨by trivial, by trivial, ?_, ?_⟩
    · have hdes := likePairCount_after_destroy s.likes u p l hfindl huniq
      have hone' : (s.likes.filter (fun x => x.postId == p && x.userId == u)).length = 1 := hone
      omega
    · rw [if_neg hcnt1]
  | none =>
    have hcnt : likePairCount s u p = 0 := (likeFindOne_eq_none_iff s u p).mp hfind
    have hpostne : (Post.findByPk s p).isNone = false := by rw [hpost]; rfl
    have huserne : (User.findByPk s u).isNone = false := by
      cases h : User.findByPk s u
      · rw [h] at huser; exact absurd huser (by simp)
      · rfl
    have hcnt' : (s.likes.filter (fun x => x.postId == p && x.userId == u)).length = 0 := hcnt
    have hcre := likePairCount_after_create s.likes u p
      ({ id := s.nextLikeId, userId := u, postId := p, createdAt := s.now } : Like) rfl rfl
    simp only [likePost, likePostRaced, hpost, hid, hfind, huserne,
      Option.isSome_none, Option.isNone_some, Bool.or_false, Bool.false_or,
      Bool.or_self, Bool.false_eq_true, if_false, likePairCount]
    refine ⟨by trivial, by trivial, ?_, ?_⟩
    · omega
    · rw [if_pos hcnt']

/-- Iterating the toggle from a state with at most one row for the pair
leaves `(initial count + n) mod 2` rows. -/
theorem likePostIter_count (u p : Nat) (post : Post) :
    ∀ (n : Nat) (s : Store), Post.findByPk s p = some post →
      (User.findByPk s u).isSome = true → likePairCount s u p ≤ 1 →
      likePairCount (likePostIter s u p n) u p = (likePairCount s u p + n) % 2 := by
  intro n
  induction n with
  | zero =>
    intro s _ _ h3
    simp only [likePostIter]
    omega
  | succ n ih =>
    intro s h1 h2 h3
    have hstep := likePost_step s u p post h1 h2 h3
    have h1' : Post.findByPk (likePost s u p).2 p = some post := by
      unfold Post.findByPk at h1 ⊢
      rw [hstep.1]; exact h1
    have h2' : (User.findByPk (likePost s u p).2 u).isSome = true := by
      unfold User.findByPk at h2 ⊢
      rw [hstep.2.1]; exact h2
    have h3' : likePairCount (likePost s u p).2 u p ≤ 1 := by
      rw [hstep.2.2.1]; omega
    simp only [likePostIter]
    rw [ih _ h1' h2' h3', hstep.2.2.1]
    omega

/-- C2: when the post exists and the acting user is a real user, the like
toggle deletes the `Like(u, p)` row reporting `liked = false` when one
exists, creates it reporting `liked = true` otherwise; from a state with no
row for the pair, two calls report `true` then `false` and leave zero rows,
and `n` calls leave `n % 2` rows — so an odd number of calls leaves exactly
one. -/
theorem likePost_toggle_correct (s : Store) (u p : Nat) (post : Post)
    (hpost : Post.findByPk s p = some post)
    (huser : (User.findByPk s u).isSome = true)
    (huniq : likePairCount s u p ≤ 1) :
    (likePairCount s u p ≠ 0 →
      (likePost s u p).1 = LikeResponse.ok "Post unliked" false ∧
      likePairCount (likePost s u p).2 u p = 0) ∧
    (likePairCount s u p = 0 →
      (likePost s u p).1 = LikeResponse.ok "Post liked" true ∧
      likePairCount (likePost s u p).2 u p = 1) ∧
    (likePairCount s u p = 0 →
      (likePost s u p).1 = LikeResponse.ok "Post liked" true ∧
      (likePost (likePost s u p).2 u p).1 = LikeResponse.ok "Post unliked" false ∧
      likePairCount (likePost (likePost s u p).2 u p).2 u p = 0) ∧
    (likePairCount s u p = 0 → ∀ n : Nat,
      likePairCount (likePostIter s u p n) u p = n % 2) := by
  have hstep := likePost_step s u p post hpost huser huniq
  have h1' : Post.findByPk (likePost s u p).2 p = some post := by
    unfold Post.findByPk at hpost ⊢
    rw [hstep.1]; exact hpost
  have h2' : (User.findByPk (likePost s u p).2 u).isSome = true := by
    unfold User.findByPk at huser ⊢
    rw [hstep.2.1]; exact huser
  have h3' : likePairCount (likePost s u p).2 u p ≤ 1 := by
    rw [hstep.2.2.1]; omega
  have hstep2 := likePost_step (likePost s u p).2 u p post h1' h2' h3'
  refine ⟨?_, ?_, ?_, ?_⟩
  · intro hne
    exact ⟨by rw [hstep.2.2.2, if_neg hne], by rw [hstep.2.2.1]; omega⟩
  · intro h0
    exact ⟨by rw [hstep.2.2.2, if_pos h0], by rw [hstep.2.2.1, h0]⟩
  · intro h0
    have hc1 : likePairCount (likePost s u p).2 u p = 1 := by
      rw [hstep.2.2.1, h0]
    refine ⟨by rw [hstep.2.2.2, if_pos h0], ?_, ?_⟩
    · rw [hstep2.2.2.2, if_neg (by omega)]
    · rw [hstep2.2.2.1, hc1]
  · intro h0 n
    rw [likePostIter_count u p post n s hpost huser huniq, h0]
    omega

/-- Witness for C2 at the sample store: user 1 has no like on post 1; the
first toggle reports `liked = true` and leaves one row, the second reports
`liked = false` and leaves zero. -/
theorem likePost_toggle_correct_witness :
    likePairCount sampleStore 1 1 = 0 ∧
    (likePost sampleStore 1 1).1 = LikeResponse.ok "Post liked" true ∧
    (likePost (likePost sampleStore 1 1).2 1 1).1 = LikeResponse.ok "Post unliked" false ∧
    likePairCount (likePost (likePost sampleStore 1 1).2 1 1).2 1 1 = 0 := by
  have h := (likePost_toggle_correct sampleStore 1 1 samplePost (by decide)
    (by decide) (by decide)).2.2.1 (by decide)
  exact ⟨by decide, h.1, h.2.1, h.2.2⟩

/-- An option that is present is not absent. -/
theorem isNone_eq_false_of_isSome {α : Type} {o : Option α}
    (h : o.isSome = true) : o.isNone = false := by
  cases o
  · simp at h
  · rfl

/-- C3: each of `updatePost`, `deletePost`, `updateComment` and
`deleteComment`, called on an existing entity by an actor who is not its
author, answers Forbidden and returns the store unchanged. -/
theorem mutation_ownership_forbidden (s : Store) (actor : Nat) :
    (∀ pid post b, Post.findByPk s pid = some post → post.authorId ≠ actor →
      updatePost s actor pid b = (UpdatePostResponse.forbidden, s)) ∧
    (∀ pid post, Post.findByPk s pid = some post → post.authorId ≠ actor →
      deletePost s actor pid = (DeleteResponse.forbidden, s)) ∧
    (∀ cid c content, Comment.findByPk s cid = some c → c.authorId ≠ actor →
      updateComment s actor cid content = (UpdateCommentResponse.forbidden, s)) ∧
    (∀ cid c, Comment.findByPk s cid = some c → c.authorId ≠ actor →
      deleteComment s actor cid = (DeleteResponse.forbidden, s)) := by
  refine ⟨?_, ?_, ?_, ?_⟩
  · intro pid post b hfind hne
    simp only [updatePost, hfind]
    rw [if_pos (by simpa using hne)]
  · intro pid post hfind hne
    simp only [deletePost, hfind]
    rw [if_pos (by simpa using hne)]
  · intro cid c content hfind hne
    simp only [updateComment, hfind]
    rw [if_pos (by simpa using hne)]
  · intro cid c hfind hne
    simp only [deleteComment, hfind]
    rw [if_pos (by simpa using hne)]

/-- Witness for C3 at the sample store: actor 2 is not the author of post 1
or comment 2, and all four mutations answer Forbidden without touching the
store. -/
theorem mutation_ownership_forbidden_witness :
    updatePost sampleStore 2 1 {} = (UpdatePostResponse.forbidden, sampleStore) ∧
    deletePost sampleStore 2 1 = (DeleteResponse.forbidden, sampleStore) ∧
    updateComment sampleStore 2 2 "zz" = (UpdateCommentResponse.forbidden, sampleStore) ∧
    deleteComment sampleStore 2 2 = (DeleteResponse.forbidden, sampleStore) := by
  have h := mutation_ownership_forbidden sampleStore 2
  exact ⟨h.1 1 samplePost {} (by decide) (by decide),
         h.2.1 1 samplePost (by decide) (by decide),
         h.2.2.1 2 sampleC2 "zz" (by decide) (by decide),
         h.2.2.2 2 sampleC2 (by decide) (by decide)⟩

/-- C5: `getPostById` answers NotFound leaving the store untouched when the
post is absent or unpublished; on a published post it answers with the post
carrying `viewCount + 1` and persists that increment. -/
theorem getPostById_viewCount (s : Store) (viewer : Option Nat) (pid : Nat) :
    (Post.findByPk s pid = none →
      getPostById s viewer pid = (PostDetailResponse.notFound, s)) ∧
    (∀ post, Post.findByPk s pid = some post → post.isPublished = false →
      getPostById s viewer pid = (PostDetailResponse.notFound, s)) ∧
    (∀ post, Post.findByPk s pid = some post → post.isPublished = true →
      (∃ author comments likeCount isLiked,
        (getPostById s viewer pid).1 = PostDetailResponse.ok
          { post with viewCount := post.viewCount + 1, updatedAt := s.now }
          author comments likeCount isLiked) ∧
      Post.findByPk (getPostById s viewer pid).2 pid =
        some { post with viewCount := post.viewCount + 1, updatedAt := s.now }) := by
  refine ⟨?_, ?_, ?_⟩
  · intro hnone
    simp only [getPostById, hnone]
  · intro post hfind hunpub
    simp only [getPostById, hfind, hunpub]
    rfl
  · intro post hfind hpub
    have hid : post.id = pid := by
      have h := @List.find?_some Post (fun x => x.id == pid) post s.posts hfind
      simpa using h
    constructor
    · simp only [getPostById, hfind, hpub, Bool.not_true, Bool.false_eq_true, if_false]
      exact ⟨_, _, _, _, rfl⟩
    · simp only [getPostById, hfind, hpub, Bool.not_true, Bool.false_eq_true, if_false]
      show (s.posts.map _).find? _ = _
      exact find?_replace s.posts pid post _ hfind rfl

/-- Witness for C5: reading published post 1 of the sample store persists
`viewCount = 1`, and the unpublished post 3 answers NotFound with the store
unchanged. -/
theorem getPostById_viewCount_witness :
    Post.findByPk (getPostById sampleStore (some 2) 1).2 1 =
      some { samplePost with viewCount := 1, updatedAt := 100 } ∧
    getPostById sampleStore (some 2) 3 = (PostDetailResponse.notFound, sampleStore) := by
  have h := (getPostById_viewCount sampleStore (some 2) 1).2.2 samplePost
    (by decide) (by decide)
  have h3 := (getPostById_viewCount sampleStore (some 2) 3).2.1 draftPost
    (by decide) (by decide)
  exact ⟨h.2, h3⟩

/-- C9: when `excerpt` is omitted and `content` is non-empty, the stored post
row's excerpt is the first 200 characters of the content followed by the
`'...'` truncation marker. -/
theorem createPost_excerpt_derived (s : Store) (a : Nat) (b : CreatePostBody)
    (huser : (User.findByPk s a).isSome = true)
    (hex : b.excerpt = none) (hc : b.content ≠ "") :
    (createPost s a b).2.posts.getLast? = some
      { id := s.nextPostId, title := b.title, content := b.content,
        excerpt := some (b.content.take 200 ++ "..."), imageUrl := b.imageUrl,
        isPublished := true, publishedAt := some s.now, viewCount := 0,
        authorId := a, createdAt := s.now, updatedAt := s.now } := by
  have huserne : (User.findByPk s a).isNone = false := by
    cases h : User.findByPk s a
    · rw [h] at huser; exact absurd huser (by simp)
    · rfl
  have hcb : (b.content != "") = true := by simpa using hc
  simp only [createPost, huserne, Bool.false_eq_true, if_false,
    Post.applyExcerptHook, hex, Option.getD_none, beq_self_eq_true, hcb,
    Bool.and_self, if_true, Bool.true_and]
  exact List.getLast?_concat _

set_option maxRecDepth 8000

/-- Witness for C9: a 300-character content with no excerpt stores an excerpt
equal to the first 200 characters plus the `'...'` marker. -/
theorem createPost_excerpt_derived_witness :
    (createPost sampleStore 1 { title := "long", content := sampleLongContent }).2.posts.getLast? =
      some { id := 4, title := "long", content := sampleLongContent,
             excerpt := some (String.mk (List.replicate 200 'a') ++ "..."),
             imageUrl := none, isPublished := true, publishedAt := some 100,
             viewCount := 0, authorId := 1, createdAt := 100, updatedAt := 100 } := by
  have h := createPost_excerpt_derived sampleStore 1
    { title := "long", content := sampleLongContent } (by decide) rfl (by decide)
  rw [h]
  decide

/-- C4: with a `parentId` supplied (the positive ids admitted by the route's
validation schema), `createComment` fails with NotFound and creates no row
when the parent comment is absent or belongs to a different post, succeeds
exactly when the parent exists on the same post, and therefore preserves the
invariant that every stored comment with a `parentId` references a stored
comment of the same post. -/
theorem createComment_parent_validation (s : Store) (a : Nat) (content : String) (pid : Nat) :
    (∀ q, (Post.findByPk s pid).isSome = true → q ≠ 0 →
      Comment.findByPk s q = none →
      createComment s a content pid (some q) = (CreateCommentResponse.parentNotFound, s)) ∧
    (∀ q parent, (Post.findByPk s pid).isSome = true → q ≠ 0 →
      Comment.findByPk s q = some parent → parent.postId ≠ pid →
      createComment s a content pid (some q) = (CreateCommentResponse.parentNotFound, s)) ∧
    (∀ q parent, (Post.findByPk s pid).isSome = true →
      Comment.findByPk s q = some parent → parent.postId = pid →
      (User.findByPk s a).isSome = true →
      (∃ item, (createComment s a content pid (some q)).1 =
        CreateCommentResponse.created item) ∧
      (createComment s a content pid (some q)).2.comments =
        s.comments ++
          [{ id := s.nextCommentId, content := content, postId := pid,
             authorId := a, parentId := some q, isApproved := true,
             createdAt := s.now, updatedAt := s.now }]) ∧
    (∀ parentId : Option Nat, (∀ q, parentId = some q → q ≠ 0) → parentSameInv s →
      parentSameInv (createComment s a content pid parentId).2) := by
  refine ⟨?_, ?_, ?_, ?_⟩
  · intro q hpost hq hfq
    obtain ⟨post0, hp⟩ := Option.isSome_iff_exists.mp hpost
    have hqb : (q != 0) = true := by simpa using hq
    simp [createComment, hp, hfq, hqb]
  · intro q parent hpost hq hfq hppne
    obtain ⟨post0, hp⟩ := Option.isSome_iff_exists.mp hpost
    have hqb : (q != 0) = true := by simpa using hq
    have hppb : (parent.postId != pid) = true := by simpa using hppne
    simp [createComment, hp, hfq, hqb, hppb]
  · intro q parent hpost hfq hpp huser
    obtain ⟨post0, hp⟩ := Option.isSome_iff_exists.mp hpost
    have huserne : (User.findByPk s a).isNone = false := isNone_eq_false_of_isSome huser
    have hppb : (parent.postId != pid) = false := by
      rw [hpp]; simp
    constructor
    · simp [createComment, hp, hfq, hppb, huserne]
    · simp [createComment, hp, hfq, hppb, huserne]
  · intro parentId hq0 hinv
    cases hp : Post.findByPk s pid with
    | none =>
      simpa [createComment, hp] using hinv
    | some post0 =>
      cases parentId with
      | none =>
        by_cases hu : (User.findByPk s a).isNone = true
        · simpa [createComment, hp, hu] using hinv
        · have hu' : (User.findByPk s a).isNone = false := by
            revert hu; cases User.findByPk s a <;> simp
          intro x hx qx hqx
          simp only [createComment, hp, hu', Bool.false_eq_true, if_false,
            Bool.and_false, Bool.false_and] at hx
          rcases List.mem_append.mp hx with hx | hx
          · obtain ⟨par, hmem, hidp, hpidp⟩ := hinv x hx qx hqx
            refine ⟨par, ?_, hidp, hpidp⟩
            simp only [createComment, hp, hu', Bool.false_eq_true, if_false,
              Bool.and_false, Bool.false_and]
            exact List.mem_append_left _ hmem
          · rw [List.mem_singleton] at hx
            subst hx
            simp at hqx
      | some q =>
        have hq : q ≠ 0 := hq0 q rfl
        have hqb : (q != 0) = true := by simpa using hq
        cases hfq : Comment.findByPk s q with
        | none => simpa [createComment, hp, hfq, hqb] using hinv
        | some parent =>
          by_cases hpp : (parent.postId != pid) = true
          · simpa [createComment, hp, hfq, hqb, hpp] using hinv
          · have hppb : (parent.postId != pid) = false := by
              revert hpp; cases parent.postId != pid <;> simp
            have hppe : parent.postId = pid := by simpa using hppb
            by_cases hu : (User.findByPk s a).isNone = true
            · simpa [createComment, hp, hfq, hqb, hppb, hu] using hinv
            · have hu' : (User.findByPk s a).isNone = false := by
                revert hu; cases User.findByPk s a <;> simp
              intro x hx qx hqx
              simp only [createComment, hp, hfq, hqb, hppb, hu',
                Bool.false_eq_true, if_false, Bool.and_false, Bool.false_and,
                Bool.true_and, Option.isNone_some] at hx
              rcases List.mem_append.mp hx with hx | hx
              · obtain ⟨par, hmem, hidp, hpidp⟩ := hinv x hx qx hqx
                refine ⟨par, ?_, hidp, hpidp⟩
                simp only [createComment, hp, hfq, hqb, hppb, hu',
                  Bool.false_eq_true, if_false, Bool.and_false, Bool.false_and,
                  Bool.true_and, Option.isNone_some]
                exact List.mem_append_left _ hmem
              · rw [List.mem_singleton] at hx
                subst hx
                have hqq : qx = q := by
                  have h := hqx
                  simp at h
                  omega
                refine ⟨parent, ?_, ?_, ?_⟩
                · simp only [createComment, hp, hfq, hqb, hppb, hu',
                    Bool.false_eq_true, if_false, Bool.and_false, Bool.false_and,
                    Bool.true_and, Option.isNone_some]
                  exact List.mem_append_left _ (List.mem_of_find?_eq_some hfq)
                · rw [hqq]
                  have h := @List.find?_some Comment (fun x => x.id == q) parent s.comments hfq
                  simpa using h
                · simpa using hppe

/-- Witness for C4 at the sample store: a parent on another post is rejected
with NotFound and no row is created, while a valid parent accepts the row. -/
theorem createComment_parent_validation_witness :
    createComment sampleStore 1 "hi" 2 (some 1) = (CreateCommentResponse.parentNotFound, sampleStore) ∧
    (createComment sampleStore 1 "hi" 1 (some 2)).2.comments =
      sampleStore.comments ++
        [{ id := 4, content := "hi", postId := 1,
           authorId := 1, parentId := some 2, isApproved := true,
           createdAt := 100, updatedAt := 100 }] := by
  have h1 := (createComment_parent_validation sampleStore 1 "hi" 2).2.1 1 sampleC1
    (by decide) (by decide) (by decide) (by decide)
  have h2 := ((createComment_parent_validation sampleStore 1 "hi" 1).2.2.1 2 sampleC2
    (by decide) (by decide) (by decide) (by decide)).2
  exact ⟨h1, h2⟩

/-- C8: the two races of the like toggle, evaluated at concrete interleaved
stores. The duplicate insert — both calls read a like-free store, the first
insert lands, then the second insert is rejected by the unique
`(userId, postId)` index — is surfaced by the catch-all handler as Internal
(500), not translated to a no-op success; the duplicate delete, by contrast,
is a silent no-op reported as a successful unlike. -/
theorem likePost_race_behaviour :
    likePostRaced raceBase raceAfterInsert 1 1 = (LikeResponse.internal, raceAfterInsert) ∧
    likePostRaced raceLiked (likePost raceLiked 1 1).2 1 1 =
      (LikeResponse.ok "Post unliked" false, (likePost raceLiked 1 1).2) := by
  decide

/-- Counterexample for C6: on the sample store, `getComments` returns the
page of top-level comments with creation times `[20, 10]` — newest first —
which is not ascending order. -/
theorem getComments_topLevel_not_ascending_cex :
    (commentsOf (getComments sampleStore 1 none none)).map
      (fun i => i.comment.createdAt) = [20, 10] ∧
    ¬ List.Sorted (fun a b : Nat => a ≤ b) [20, 10] := by
  constructor
  · decide
  · decide

/-- C6 as amended: for an existing post, `getComments` returns the page of
top-level comments of that post ordered by creation time DESCENDING (the
controller orders `[['createdAt', 'DESC']]`), each carrying its direct
replies ordered by creation time ascending. -/
theorem getComments_ordering_amended (s : Store) (pid : Nat)
    (pageQ limitQ : Option String) (p L : Int)
    (hpost : (Post.findByPk s pid).isSome = true)
    (hp : jsParseInt (pageQ.getD "1") = some p)
    (hL : jsParseInt (limitQ.getD "20") = some L)
    (hp1 : 1 ≤ p) (hL0 : 0 ≤ L) :
    ∃ items pag, getComments s pid pageQ limitQ = CommentsResponse.ok items pag ∧
      List.Sorted byCreatedAtDesc (items.map (fun i => i.comment)) ∧
      (∀ i ∈ items, i.comment.postId = pid ∧ i.comment.parentId = none) ∧
      (∀ i ∈ items,
        List.Sorted byCreatedAtAsc (i.replies.map (fun r => r.comment)) ∧
        ∀ r ∈ i.replies, r.comment.parentId = some i.comment.id) ∧
      items.length ≤ L.toNat := by
  obtain ⟨post0, hp0⟩ := Option.isSome_iff_exists.mp hpost
  have hcond : (decide (L < 0) || decide ((p - 1) * L < 0)) = false := by
    have h1 : ¬ (L < 0) := not_lt.mpr hL0
    have h2 : ¬ ((p - 1) * L < 0) := not_lt.mpr (mul_nonneg (by omega) hL0)
    simp [h1, h2]
  simp only [getComments, hp0, hp, hL, hcond, Bool.false_eq_true, if_false]
  refine ⟨_, _, rfl, ?_, ?_, ?_, ?_⟩
  · have hsort : List.Sorted byCreatedAtDesc
        (List.insertionSort byCreatedAtDesc (topLevelFor s pid)) :=
      List.sorted_insertionSort _ _
    have h1 : List.Sorted byCreatedAtDesc
        ((List.insertionSort byCreatedAtDesc (topLevelFor s pid)).drop ((p - 1) * L).toNat) :=
      List.Pairwise.sublist (List.drop_sublist _ _) hsort
    have h2 : List.Sorted byCreatedAtDesc
        (((List.insertionSort byCreatedAtDesc (topLevelFor s pid)).drop
          ((p - 1) * L).toNat).take L.toNat) :=
      List.Pairwise.sublist (List.take_sublist _ _) h1
    rw [List.map_map]
    have hcomp : ((fun i : CommentItem => i.comment) ∘ buildCommentItem s) =
        fun c => c := rfl
    rw [hcomp, List.map_id']
    exact h2
  · intro i hi
    obtain ⟨c, hc, hci⟩ := List.mem_map.mp hi
    have hcs : c ∈ List.insertionSort byCreatedAtDesc (topLevelFor s pid) :=
      List.drop_subset _ _ (List.take_subset _ _ hc)
    have hct : c ∈ topLevelFor s pid :=
      (List.perm_insertionSort byCreatedAtDesc _).mem_iff.mp hcs
    have hprops := (List.mem_filter.mp hct).2
    simp only [Bool.and_eq_true, beq_iff_eq] at hprops
    rw [← hci]
    exact hprops
  · intro i hi
    obtain ⟨c, hc, hci⟩ := List.mem_map.mp hi
    rw [← hci]
    constructor
    · show List.Sorted byCreatedAtAsc ((commentReplies s c).map (fun r => r.comment))
      unfold commentReplies
      rw [List.map_map]
      have hcomp : ((fun r : ReplyItem => r.comment) ∘
          fun r => ({ comment := r, author := commentAuthor s r } : ReplyItem)) =
          fun r => r := rfl
      rw [hcomp, List.map_id']
      exact List.sorted_insertionSort _ _
    · intro r hr
      have hr' : r ∈ commentReplies s c := hr
      unfold commentReplies at hr'
      obtain ⟨rc, hrc, hrr⟩ := List.mem_map.mp hr'
      have hrct : rc ∈ s.comments.filter (fun x => x.parentId == some c.id) :=
        (List.perm_insertionSort byCreatedAtAsc _).mem_iff.mp hrc
      have hpred := (List.mem_filter.mp hrct).2
      simp only [beq_iff_eq] at hpred
      rw [← hrr]
      exact hpred
  · rw [List.length_map, List.length_take]
    exact min_le_left _ _

/-- Witness for the amended C6 at the sample store with default paging. -/
theorem getComments_ordering_amended_witness :
    ∃ items pag, getComments sampleStore 1 none none = CommentsResponse.ok items pag ∧
      List.Sorted byCreatedAtDesc (items.map (fun i => i.comment)) ∧
      (∀ i ∈ items, i.comment.postId = 1 ∧ i.comment.parentId = none) ∧
      (∀ i ∈ items,
        List.Sorted byCreatedAtAsc (i.replies.map (fun r => r.comment)) ∧
        ∀ r ∈ i.replies, r.comment.parentId = some i.comment.id) ∧
      items.length ≤ (20 : Int).toNat :=
  getComments_ordering_amended sampleStore 1 none none 1 20 (by decide)
    (by decide) (by decide) (by decide) (by decide)

/-- Counterexample for C7 at the sample store: an explicitly supplied
`limit = "0"` is passed through as `LIMIT 0` and yields an empty page, while
the same call with the parameter absent (the actual defaults) returns posts —
so invalid values do not fall back to the defaults; and an unknown `sortBy`
is answered with Internal (500), not with a validation error. -/
theorem getPosts_invalid_params_cex :
    postsOf (getPosts sampleStore { limit := some "0" } none) = [] ∧
    postsOf (getPosts sampleStore {} none) ≠ [] ∧
    getPosts sampleStore { sortBy := some "banana" } none = PostsResponse.internal := by
  refine ⟨by decide, by decide, by decide⟩

/-- C7 as amended: the destructuring defaults of `getPosts` apply only when
`page`/`limit` are absent; supplied invalid values are passed through — a
zero limit yields an empty page, a non-numeric page or limit makes the store
reject the query and the call answers Internal (500) — and an unknown
`sortBy` column likewise answers Internal, there being no validation-error
path in this controller. -/
theorem getPosts_invalid_params_amended :
    (∀ (s : Store) (viewer : Option Nat),
      postsOf (getPosts s { limit := some "0" } viewer) = []) ∧
    (∀ (s : Store) (viewer : Option Nat) (pg : String), jsParseInt pg = none →
      getPosts s { page := some pg } viewer = PostsResponse.internal) ∧
    (∀ (s : Store) (viewer : Option Nat) (lim : String), jsParseInt lim = none →
      getPosts s { limit := some lim } viewer = PostsResponse.internal) ∧
    (∀ (s : Store) (viewer : Option Nat) (sb : String),
      validSortColumns.contains sb = false →
      getPosts s { sortBy := some sb } viewer = PostsResponse.internal) := by
  refine ⟨?_, ?_, ?_, ?_⟩
  · intro s viewer
    have herr : getPostsQueryError { limit := some "0" } = false := by decide
    have h0 : jsParseInt "0" = some 0 := by decide
    simp [getPosts, getPostsT, herr, postsOf, getPostsRows, h0]
  · intro s viewer pg hpg
    have herr : getPostsQueryError { page := some pg } = true := by
      simp [getPostsQueryError, hpg]
    simp [getPosts, getPostsT, herr]
  · intro s viewer lim hlim
    have herr : getPostsQueryError { limit := some lim } = true := by
      simp [getPostsQueryError, hlim]
    simp [getPosts, getPostsT, herr]
  · intro s viewer sb hsb
    have herr : getPostsQueryError { sortBy := some sb } = true := by
      have h1 : jsParseInt "1" = some 1 := by decide
      have h10 : jsParseInt "10" = some 10 := by decide
      simp [getPostsQueryError, h1, h10, hsb]
      exact Or.inl (by simpa using hsb)
    simp [getPosts, getPostsT, herr]

/-- Witness for the amended C7: concrete invalid parameters at the sample
store. -/
theorem getPosts_invalid_params_amended_witness :
    getPosts sampleStore { sortBy := some "banana" } none = PostsResponse.internal ∧
    getPosts sampleStore { page := some "abc" } none = PostsResponse.internal ∧
    postsOf (getPosts sampleStore { limit := some "0" } none) = [] := by
  have h := getPosts_invalid_params_amended
  exact ⟨h.2.2.2 sampleStore none "banana" (by decide),
         h.2.1 sampleStore none "abc" (by decide),
         h.1 sampleStore none⟩

/-- C1 evaluation: the round-trip count of `getPosts` is linear in the number
of rows on the page — `1 + 3K` store queries with an authenticated viewer and
`1 + 2K` anonymously, because the `Intentionally inefficient` block issues
`Comment.count`, `Like.count` and `Like.findOne` separately per post — and at
concrete stores the count grows from 4 to 7 as the page grows from one to two
posts. It is therefore not bounded by a constant independent of the page
size. -/
theorem getPosts_queryCount_linear (s : Store) (q : PostQuery) (u : Nat)
    (herr : getPostsQueryError q = false) :
    getPostsQueryCount s q (some u) = 1 + 3 * (getPostsRows s q).length ∧
    getPostsQueryCount s q none = 1 + 2 * (getPostsRows s q).length ∧
    getPostsQueryCount raceBase {} (some 1) = 1 + 3 * 1 ∧
    getPostsQueryCount sampleStore {} (some 1) = 1 + 3 * 2 := by
  refine ⟨?_, ?_, by decide, by decide⟩
  · simp only [getPostsQueryCount, getPostsT, herr, Bool.false_eq_true, if_false]
    rw [List.map_map]
    have hcomp : (Prod.snd ∘ annotatePost s (some u)) = fun _ => 3 := by
      funext x
      simp [annotatePost, Function.comp]
    rw [hcomp, sum_map_const_nat]
  · simp only [getPostsQueryCount, getPostsT, herr, Bool.false_eq_true, if_false]
    rw [List.map_map]
    have hcomp : (Prod.snd ∘ annotatePost s none) = fun _ => 2 := by
      funext x
      simp [annotatePost, Function.comp]
    rw [hcomp, sum_map_const_nat]

/-- Witness for the C1 evaluation at the sample store. -/
theorem getPosts_queryCount_linear_witness :
    getPostsQueryCount sampleStore {} (some 1) =
      1 + 3 * (getPostsRows sampleStore {}).length :=
  (getPosts_queryCount_linear sampleStore {} 1 (by decide)).1

/-! Infrastructure for the `isApproved` noninterference claim. -/

/-- `orderedInsert` commutes with a map that respects the order. -/
theorem orderedInsert_map {α : Type} (r : α → α → Prop) [DecidableRel r]
    (g : α → α) (hr : ∀ a b, r (g a) (g b) ↔ r a b) (a : α) (l : List α) :
    List.orderedInsert r (g a) (l.map g) = (List.orderedInsert r a l).map g := by
  induction l with
  | nil => rfl
  | cons b t ih =>
    simp only [List.map_cons, List.orderedInsert]
    by_cases h : r a b
    · rw [if_pos ((hr a b).mpr h), if_pos h]
      simp
    · rw [if_neg (fun hc => h ((hr a b).mp hc)), if_neg h]
      simp [ih]

/-- `insertionSort` commutes with a map that respects the order. -/
theorem insertionSort_map {α : Type} (r : α → α → Prop) [DecidableRel r]
    (g : α → α) (hr : ∀ a b, r (g a) (g b) ↔ r a b) (l : List α) :
    List.insertionSort r (l.map g) = (List.insertionSort r l).map g := by
  induction l with
  | nil => rfl
  | cons b t ih =>
    simp only [List.map_cons, List.insertionSort, ih,
      orderedInsert_map r g hr]

/-- A `stripApproved`-preserving transformation preserves every column of a
comment other than `isApproved`. -/
theorem stripApproved_fields {g : Comment → Comment}
    (hg : ∀ c, stripApproved (g c) = stripApproved c) (c : Comment) :
    (g c).id = c.id ∧ (g c).content = c.content ∧ (g c).postId = c.postId ∧
    (g c).authorId = c.authorId ∧ (g c).parentId = c.parentId ∧
    (g c).createdAt = c.createdAt ∧ (g c).updatedAt = c.updatedAt := by
  have h := hg c
  simp only [stripApproved, Comment.mk.injEq, and_true, true_and] at h
  exact h

/-- The ascending comparator is blind to `isApproved`. -/
theorem byCreatedAtAsc_map_iff {g : Comment → Comment}
    (hg : ∀ c, stripApproved (g c) = stripApproved c) (a b : Comment) :
    byCreatedAtAsc (g a) (g b) ↔ byCreatedAtAsc a b := by
  unfold byCreatedAtAsc
  rw [(stripApproved_fields hg a).2.2.2.2.2.1, (stripApproved_fields hg b).2.2.2.2.2.1]

/-- The descending comparator is blind to `isApproved`. -/
theorem byCreatedAtDesc_map_iff {g : Comment → Comment}
    (hg : ∀ c, stripApproved (g c) = stripApproved c) (a b : Comment) :
    byCreatedAtDesc (g a) (g b) ↔ byCreatedAtDesc a b := by
  unfold byCreatedAtDesc
  rw [(stripApproved_fields hg a).2.2.2.2.2.1, (stripApproved_fields hg b).2.2.2.2.2.1]

/-- The author include is blind to `isApproved`. -/
theorem commentAuthor_map (sA sB : Store) (g : Comment → Comment)
    (hg : ∀ c, stripApproved (g c) = stripApproved c)
    (husers : sB.users = sA.users) (c : Comment) :
    commentAuthor sB (g c) = commentAuthor sA c := by
  unfold commentAuthor User.findByPk
  rw [husers, (stripApproved_fields hg c).2.2.2.1]

/-- The replies include is blind to `isApproved`. -/
theorem commentReplies_map (sA sB : Store) (g : Comment → Comment)
    (hg : ∀ c, stripApproved (g c) = stripApproved c)
    (husers : sB.users = sA.users)
    (hcomments : sB.comments = sA.comments.map g) (c : Comment) :
    commentReplies sB (g c) = (commentReplies sA c).map (mapReplyItem g) := by
  unfold commentReplies
  rw [(stripApproved_fields hg c).1, hcomments, List.filter_map]
  have hpred : ((fun r : Comment => r.parentId == some c.id) ∘ g) =
      (fun r : Comment => r.parentId == some c.id) := by
    funext r
    simp [Function.comp, (stripApproved_fields hg r).2.2.2.2.1]
  rw [hpred, insertionSort_map byCreatedAtAsc g (byCreatedAtAsc_map_iff hg),
    List.map_map, List.map_map]
  apply List.map_congr_left
  intro r _
  show ({ comment := g r, author := commentAuthor sB (g r) } : ReplyItem) =
    mapReplyItem g { comment := r, author := commentAuthor sA r }
  rw [commentAuthor_map sA sB g hg husers r]
  rfl

/-- One assembled `getComments` row is blind to `isApproved`. -/
theorem buildCommentItem_map (sA sB : Store) (g : Comment → Comment)
    (hg : ∀ c, stripApproved (g c) = stripApproved c)
    (husers : sB.users = sA.users)
    (hcomments : sB.comments = sA.comments.map g) (c : Comment) :
    buildCommentItem sB (g c) = mapCommentItem g (buildCommentItem sA c) := by
  simp only [buildCommentItem, mapCommentItem]
  rw [commentAuthor_map sA sB g hg husers c,
    commentReplies_map sA sB g hg husers hcomments c]

/-- The top-level selection of `getComments` is blind to `isApproved`. -/
theorem topLevelFor_map (sA sB : Store) (g : Comment → Comment)
    (hg : ∀ c, stripApproved (g c) = stripApproved c)
    (hcomments : sB.comments = sA.comments.map g) (pid : Nat) :
    topLevelFor sB pid = (topLevelFor sA pid).map g := by
  unfold topLevelFor
  rw [hcomments, List.filter_map]
  have hpred : ((fun c : Comment => c.postId == pid && c.parentId == none) ∘ g) =
      (fun c : Comment => c.postId == pid && c.parentId == none) := by
    funext c
    simp [Function.comp, (stripApproved_fields hg c).2.2.1,
      (stripApproved_fields hg c).2.2.2.2.1]
  rw [hpred]

/-- `getComments` on two stores differing only in `isApproved` values returns
the same rows up to that flag. -/
theorem getComments_map (sA sB : Store) (g : Comment → Comment)
    (hg : ∀ c, stripApproved (g c) = stripApproved c)
    (husers : sB.users = sA.users) (hposts : sB.posts = sA.posts)
    (hcomments : sB.comments = sA.comments.map g)
    (pid : Nat) (pageQ limitQ : Option String) :
    getComments sB pid pageQ limitQ =
      mapCommentsResponse g (getComments sA pid pageQ limitQ) := by
  have hfb : Post.findByPk sB pid = Post.findByPk sA pid := by
    unfold Post.findByPk; rw [hposts]
  cases hfp : Post.findByPk sA pid with
  | none => simp only [getComments, hfb, hfp]; rfl
  | some post0 =>
    cases hpp : jsParseInt (pageQ.getD "1") with
    | none => simp only [getComments, hfb, hfp, hpp]; rfl
    | some p =>
      cases hll : jsParseInt (limitQ.getD "20") with
      | none => simp only [getComments, hfb, hfp, hpp, hll]; rfl
      | some L =>
        by_cases hc : (decide (L < 0) || decide ((p - 1) * L < 0)) = true
        · simp only [getComments, hfb, hfp, hpp, hll, hc, if_true]; rfl
        · have hc' : (decide (L < 0) || decide ((p - 1) * L < 0)) = false := by
            revert hc; cases decide (L < 0) || decide ((p - 1) * L < 0) <;> simp
          simp only [getComments, hfb, hfp, hpp, hll, hc', Bool.false_eq_true,
            if_false, mapCommentsResponse]
          rw [topLevelFor_map sA sB g hg hcomments pid,
            insertionSort_map byCreatedAtDesc g (byCreatedAtDesc_map_iff hg),
            ← List.map_drop, ← List.map_take, List.map_map, List.length_map]
          congr 1
          rw [List.map_map]
          apply List.map_congr_left
          intro c _
          exact buildCommentItem_map sA sB g hg husers hcomments c

/-- `post.getCommentsWithAuthors()` on two stores differing only in
`isApproved` values returns the same rows up to that flag. -/
theorem getCommentsWithAuthors_map (sA sB : Store) (g : Comment → Comment)
    (hg : ∀ c, stripApproved (g c) = stripApproved c)
    (husers : sB.users = sA.users)
    (hcomments : sB.comments = sA.comments.map g) (p2 : Post) :
    Post.getCommentsWithAuthors sB p2 =
      (Post.getCommentsWithAuthors sA p2).map (mapCommentWithAuthor g) := by
  simp only [Post.getCommentsWithAuthors, User.findByPk]
  rw [hcomments, List.filter_map]
  have hpred : ((fun c : Comment => c.postId == p2.id) ∘ g) =
      (fun c : Comment => c.postId == p2.id) := by
    funext c
    simp [Function.comp, (stripApproved_fields hg c).2.2.1]
  rw [hpred, insertionSort_map byCreatedAtAsc g (byCreatedAtAsc_map_iff hg),
    List.map_map, List.map_map]
  apply List.map_congr_left
  intro c _
  show ({ comment := g c,
          author := sB.users.find? (fun u => u.id == (g c).authorId) } : CommentWithAuthor) =
    mapCommentWithAuthor g
      { comment := c, author := sA.users.find? (fun u => u.id == c.authorId) }
  rw [husers, (stripApproved_fields hg c).2.2.2.1]
  rfl

/-- `getPostById` on two stores differing only in `isApproved` values gives
the same response up to the flag, and the written-back stores again differ
only in those values. -/
theorem getPostById_map (sA sB : Store) (g : Comment → Comment)
    (hg : ∀ c, stripApproved (g c) = stripApproved c)
    (husers : sB.users = sA.users) (hposts : sB.posts = sA.posts)
    (hlikes : sB.likes = sA.likes)
    (hcomments : sB.comments = sA.comments.map g)
    (hn1 : sB.nextPostId = sA.nextPostId)
    (hn2 : sB.nextCommentId = sA.nextCommentId)
    (hn3 : sB.nextLikeId = sA.nextLikeId) (hnow : sB.now = sA.now)
    (viewer : Option Nat) (pid : Nat) :
    (getPostById sB viewer pid).1 =
      mapDetailResponse g (getPostById sA viewer pid).1 ∧
    (getPostById sB viewer pid).2 =
      { (getPostById sA viewer pid).2 with
        comments := (getPostById sA viewer pid).2.comments.map g } := by
  have hfb : Post.findByPk sB pid = Post.findByPk sA pid := by
    unfold Post.findByPk; rw [hposts]
  have hstoreEq : sB = { sA with comments := sA.comments.map g } := by
    rcases sB with ⟨u, p, c, l, a1, a2, a3, nw⟩
    simp only at husers hposts hlikes hcomments hn1 hn2 hn3 hnow
    subst husers hposts hlikes hcomments hn1 hn2 hn3 hnow
    rfl
  cases hfp : Post.findByPk sA pid with
  | none =>
    constructor
    · simp only [getPostById, hfb, hfp]; rfl
    · simp only [getPostById, hfb, hfp]
      exact hstoreEq
  | some post =>
    cases hpub : post.isPublished with
    | false =>
      constructor
      · simp only [getPostById, hfb, hfp, hpub, Bool.not_false, if_true]; rfl
      · simp only [getPostById, hfb, hfp, hpub, Bool.not_false, if_true]
        exact hstoreEq
    | true =>
      constructor
      · simp only [getPostById, hfb, hfp, hpub, Bool.not_true,
          Bool.false_eq_true, if_false, mapDetailResponse]
        rw [hnow]
        congr 1
        all_goals
          first
          | rfl
          | (exact getCommentsWithAuthors_map _ _ g hg (by simp [husers])
              (by simp [hcomments]) _)
          | (simp only [User.findByPk]; rw [husers])
          | (simp only [Like.count]; rw [hlikes])
          | (cases viewer with
             | none => rfl
             | some u =>
               simp only [Like.findOne]
               rw [hlikes])
      · simp only [getPostById, hfb, hfp, hpub, Bool.not_true,
          Bool.false_eq_true, if_false]
        rw [hstoreEq]

/-- C10: the `isApproved` moderation flag never influences the read paths —
for stores that differ only in the `isApproved` values of their comments
(`s2 = s1` with comments transformed by any `stripApproved`-preserving `g`),
`getComments` and `getPostById` return the same comments, selected and
ordered identically, differing only in the flag itself; and every comment
row produced by `createComment` carries the default `isApproved = true`. -/
theorem isApproved_noninterference (s1 s2 : Store) (g : Comment → Comment)
    (hg : ∀ c, stripApproved (g c) = stripApproved c)
    (hs : s2 = { s1 with comments := s1.comments.map g }) :
    (∀ (pid : Nat) (pageQ limitQ : Option String),
      getComments s2 pid pageQ limitQ =
        mapCommentsResponse g (getComments s1 pid pageQ limitQ)) ∧
    (∀ (viewer : Option Nat) (pid : Nat),
      (getPostById s2 viewer pid).1 =
        mapDetailResponse g (getPostById s1 viewer pid).1 ∧
      (getPostById s2 viewer pid).2 =
        { (getPostById s1 viewer pid).2 with
          comments := (getPostById s1 viewer pid).2.comments.map g }) ∧
    (∀ (a : Nat) (content : String) (pid : Nat) (parentId : Option Nat)
        (c : Comment),
      c ∈ (createComment s1 a content pid parentId).2.comments →
      c ∈ s1.comments ∨ c.isApproved = true) := by
  subst hs
  refine ⟨?_, ?_, ?_⟩
  · intro pid pageQ limitQ
    exact getComments_map s1 { s1 with comments := s1.comments.map g } g hg
      rfl rfl rfl pid pageQ limitQ
  · intro viewer pid
    exact getPostById_map s1 { s1 with comments := s1.comments.map g } g hg
      rfl rfl rfl rfl rfl rfl rfl rfl viewer pid
  · intro a content pid parentId c hc
    simp only [createComment] at hc
    split at hc
    · exact Or.inl hc
    · split at hc
      · exact Or.inl hc
      · split at hc
        · exact Or.inl hc
        · split at hc
          · exact Or.inl hc
          · rcases List.mem_append.mp hc with h | h
            · exact Or.inl h
            · rw [List.mem_singleton] at h
              subst h
              exact Or.inr rfl

/-- Witness for C10: flipping every `isApproved` flag of the sample store
changes nothing about which comments `getComments` returns. -/
theorem isApproved_noninterference_witness :
    getComments { sampleStore with comments := sampleStore.comments.map flipApproved }
        1 none none =
      mapCommentsResponse flipApproved (getComments sampleStore 1 none none) :=
  (isApproved_noninterference sampleStore _ flipApproved (fun _ => rfl) rfl).1
    1 none none

end Blog
